import Mathlib

/-!
Shallow embedding of the document ingestion and extraction pipeline of the
Intelligent-Document-Processing-and-Semantic-Search repository
(`src/document_parser.py`, `src/utils/text_processing.py`,
`src/utils/ocr_utils.py`), together with theorems settling the spec claims.

Modelling conventions:
* Python strings are Lean `String`s (scanner functions work on `List Char`).
* Python `float` amounts are modelled as exact rationals `ℚ`; every numeric
  literal appearing in the pipeline (currency amounts with at most two decimal
  digits, bracket bounds) is exactly representable, so `max`, comparisons and
  sums agree with the Python computation on these values.
* Python regular-expression scanning (`search` / `findall`) is implemented as
  explicit left-to-right scanners specialised to the fixed patterns compiled in
  `FinancialDataExtractor.__init__`.  Scanners that consume a matched prefix use
  a fuel argument; every successful step consumes at least one character, so
  fuel `length + 1` reproduces the unbounded loop exactly.
* Python dict records are a fixed structure of `Option` fields: `some v` means
  the key is present with value `v`; Python truthiness is modelled per field.
* Fallible Python code is `Option`/`Except`; external-library calls (pdfplumber,
  pdf2image, Tesseract) are oracle fields of the abstract document model, with
  the wrapping error handling of this repository's code modelled faithfully.
-/

namespace RentRoll

/-- ASCII whitespace recognised by Python's `str.strip` and the regex `\s`
(space, tab, newline, carriage return, vertical tab, form feed). -/
def isPySpace (c : Char) : Bool :=
  c = ' ' || c = '\t' || c = '\n' || c = '\r' || c = '\x0b' || c = '\x0c'

/-- Python `str.strip()` on the character-list level. -/
def stripChars (cs : List Char) : List Char :=
  ((cs.dropWhile isPySpace).reverse.dropWhile isPySpace).reverse

/-- Python `str.strip()`. -/
def pyStrip (s : String) : String := ⟨stripChars s.data⟩

/-- Python `needle in hay` substring test, character-list level. -/
def hasSub (nd : List Char) : List Char → Bool
  | [] => nd.isEmpty
  | c :: rest => nd.isPrefixOf (c :: rest) || hasSub nd rest

/-- Python `needle in hay` substring test on strings (case-sensitive). -/
def subStr (nd s : String) : Bool := hasSub nd.data s.data

/-- Python `str.lower()` (ASCII case folding suffices for the pipeline). -/
def pyLower (s : String) : String := ⟨s.data.map Char.toLower⟩

/-- Python `str.replace(pat, "")` removing every (leftmost, non-overlapping)
occurrence of a non-empty pattern; fuel ≥ length suffices since each step
consumes at least one character. -/
def removeAllF (pat : List Char) : Nat → List Char → List Char
  | 0, cs => cs
  | _ + 1, [] => []
  | n + 1, c :: rest =>
      if pat ≠ [] ∧ pat.isPrefixOf (c :: rest) then
        removeAllF pat n ((c :: rest).drop pat.length)
      else
        c :: removeAllF pat n rest

/-- Python `s.replace(pat, "")` on strings. -/
def removeAll (pat s : String) : String :=
  ⟨removeAllF pat.data (s.data.length + 1) s.data⟩

/-- Numeric value of a list of decimal digit characters (Python `int`). -/
def natVal (ds : List Char) : Nat :=
  ds.foldl (fun a c => a * 10 + (c.toNat - 48)) 0

/-- Python `float(g.replace(',', ''))` for a group matched by the rent pattern
`[0-9,]+\.?\d{0,2}`: after removing commas the text is `digits[.digits]`; the
call raises `ValueError` (here: `none`) when no digit remains. -/
def pyFloatOfGroup (g : List Char) : Option ℚ :=
  let g' := g.filter (fun c => c ≠ ',')
  let intPart := g'.takeWhile Char.isDigit
  let rest := g'.dropWhile Char.isDigit
  match rest with
  | [] => if intPart.isEmpty then none else some (mkRat (natVal intPart) 1)
  | '.' :: frac =>
      if frac.all Char.isDigit ∧ ¬(intPart.isEmpty ∧ frac.isEmpty) then
        some (mkRat (natVal intPart * 10 ^ frac.length + natVal frac)
          (10 ^ frac.length))
      else none
  | _ => none

/-- Python `max` over a non-empty list given as head and tail. -/
def listMax (a : ℚ) (l : List ℚ) : ℚ := l.foldl max a

/-! ### Scanners for the compiled patterns of `FinancialDataExtractor`

All patterns are compiled with `re.IGNORECASE`, so `[A-Z]`/`[a-z]` match any
ASCII letter and literal letters match both cases. -/

/-- One match attempt of the rent pattern `\$?\s*([0-9,]+\.?\d{0,2})` at the
head of the input; on success returns the captured group together with the
remaining characters after the full match.  The greedy parts need no
backtracking: `[0-9,]` is disjoint from `.`, and nothing follows `\d{0,2}`. -/
def rentMatchAt (cs : List Char) : Option (List Char × List Char) :=
  let cs1 := match cs with
    | '$' :: r => r
    | _ => cs
  let cs2 := cs1.dropWhile isPySpace
  let digits := cs2.takeWhile (fun c => c.isDigit || c = ',')
  let rest := cs2.dropWhile (fun c => c.isDigit || c = ',')
  if digits.isEmpty then none
  else
    match rest with
    | '.' :: r2 =>
        let decs := (r2.takeWhile Char.isDigit).take 2
        some (digits ++ '.' :: decs, r2.drop decs.length)
    | _ => some (digits, rest)

/-- `re.findall` for the rent pattern: scan left to right, collecting captured
groups of non-overlapping matches.  Every successful match consumes at least
one character (the non-empty `[0-9,]+` part), so fuel `length + 1` is exact. -/
def rentFindallF : Nat → List Char → List (List Char)
  | 0, _ => []
  | _ + 1, [] => []
  | n + 1, c :: rest =>
      match rentMatchAt (c :: rest) with
      | some (g, r) => g :: rentFindallF n r
      | none => rentFindallF n rest

/-- `compiled_patterns['rent_amount'].findall(line)`. -/
def rentFindall (s : String) : List String :=
  (rentFindallF (s.data.length + 1) s.data).map List.asString

/-- Match attempt of the first `unit_number` alternative `\d{2}-\d{3}` at the
head of the input (exactly two digits, a dash, exactly three digits). -/
def unitBranch1 (cs : List Char) : Option (List Char) :=
  match cs with
  | a :: b :: '-' :: c :: d :: e :: _ =>
      if a.isDigit ∧ b.isDigit ∧ c.isDigit ∧ d.isDigit ∧ e.isDigit then
        some [a, b, '-', c, d, e]
      else none
  | _ => none

/-- Match attempt of the second `unit_number` alternative `\d{1,3}[A-Z]?\d{0,3}`
at the head of the input, all parts greedy (no part can fail once the first
digit run is non-empty, so greedy matching never backtracks). -/
def unitBranch2 (cs : List Char) : Option (List Char) :=
  let d1 := (cs.takeWhile Char.isDigit).take 3
  if d1.isEmpty then none
  else
    let r1 := cs.drop d1.length
    let letter := match r1 with
      | c :: _ => if c.isAlpha then [c] else []
      | [] => []
    let r2 := r1.drop letter.length
    let d2 := (r2.takeWhile Char.isDigit).take 3
    some (d1 ++ letter ++ d2)

/-- `compiled_patterns['unit_number'].search(line)`: leftmost position at which
either alternative matches, the first alternative preferred; returns group 1
(the whole match). -/
def unitSearchL : List Char → Option (List Char)
  | [] => none
  | c :: rest =>
      match unitBranch1 (c :: rest) with
      | some g => some g
      | none =>
          match unitBranch2 (c :: rest) with
          | some g => some g
          | none => unitSearchL rest

/-- `unit_number` search on a string. -/
def unitSearch (s : String) : Option String :=
  (unitSearchL s.data).map List.asString

/-- Case-insensitive match of a literal ASCII word at the head of the input. -/
def icPrefix : List Char → List Char → Option (List Char × List Char)
  | [], cs => some ([], cs)
  | _ :: _, [] => none
  | w :: ws, c :: cs =>
      if c.toLower = w.toLower then
        (icPrefix ws cs).map (fun p => (c :: p.1, p.2))
      else none

/-- Match attempt of the first `unit_type` alternative `MBL\d+AC\d+` at the head
of the input (case-insensitive; digit runs are maximal since `A` is no digit). -/
def unitTypeBranch1 (cs : List Char) : Option (List Char) :=
  match icPrefix ['M', 'B', 'L'] cs with
  | none => none
  | some (m1, r1) =>
      let d1 := r1.takeWhile Char.isDigit
      if d1.isEmpty then none
      else
        match icPrefix ['A', 'C'] (r1.drop d1.length) with
        | none => none
        | some (m2, r2) =>
            let d2 := r2.takeWhile Char.isDigit
            if d2.isEmpty then none else some (m1 ++ d1 ++ m2 ++ d2)

/-- Match attempt of the second `unit_type` alternative
`[A-Z]{2,4}\d+[A-Z]*\d*` at the head of the input.  With `{2,4}` greedy and a
digit required next, only the full letter run can be taken (shorter choices are
followed by a letter), so the run length must be between 2 and 4 and be
followed by a digit; the trailing parts are greedy with nothing after them. -/
def unitTypeBranch2 (cs : List Char) : Option (List Char) :=
  let ls := cs.takeWhile Char.isAlpha
  if 2 ≤ ls.length ∧ ls.length ≤ 4 then
    let r1 := cs.drop ls.length
    let d1 := r1.takeWhile Char.isDigit
    if d1.isEmpty then none
    else
      let r2 := r1.drop d1.length
      let ls2 := r2.takeWhile Char.isAlpha
      let d2 := (r2.drop ls2.length).takeWhile Char.isDigit
      some (ls ++ d1 ++ ls2 ++ d2)
  else none

/-- `compiled_patterns['unit_type'].search(line)`. -/
def unitTypeSearchL : List Char → Option (List Char)
  | [] => none
  | c :: rest =>
      match unitTypeBranch1 (c :: rest) with
      | some g => some g
      | none =>
          match unitTypeBranch2 (c :: rest) with
          | some g => some g
          | none => unitTypeSearchL rest

/-- `unit_type` search on a string. -/
def unitTypeSearch (s : String) : Option String :=
  (unitTypeSearchL s.data).map List.asString

/-- With `re.IGNORECASE`, `[A-Z][a-z]+` matches exactly a maximal ASCII letter
run of length at least two starting at the current position (the run is maximal
because the next pattern element never consumes a letter). -/
def letterWord (cs : List Char) : Option (List Char × List Char) :=
  let w := cs.takeWhile Char.isAlpha
  if 2 ≤ w.length then some (w, cs.drop w.length) else none

/-- The starred group `(?:\s+[A-Z][a-z]+)*` of the tenant pattern: repeatedly
consume whitespace followed by a letter word; a failed iteration consumes
nothing.  Each iteration consumes at least three characters, so fuel ≥ length
is exact. -/
def tenantWordGroups : Nat → List Char → List Char × List Char
  | 0, cs => ([], cs)
  | n + 1, cs =>
      let ws := cs.takeWhile isPySpace
      match letterWord (cs.drop ws.length) with
      | some (w, r) =>
          if ws.isEmpty then ([], cs)
          else
            let p := tenantWordGroups n r
            (ws ++ w ++ p.1, p.2)
      | none => ([], cs)

/-- The starred group `(?:\s*,\s*[A-Z][a-z]+)*` of the tenant pattern.  Each
iteration consumes at least the comma and a two-letter word. -/
def tenantCommaGroups : Nat → List Char → List Char × List Char
  | 0, cs => ([], cs)
  | n + 1, cs =>
      let ws1 := cs.takeWhile isPySpace
      match cs.drop ws1.length with
      | ',' :: r1 =>
          let ws2 := r1.takeWhile isPySpace
          match letterWord (r1.drop ws2.length) with
          | some (w, r2) =>
              let p := tenantCommaGroups n r2
              (ws1 ++ ',' :: ws2 ++ w ++ p.1, p.2)
          | none => ([], cs)
      | _ => ([], cs)

/-- Match attempt of the tenant pattern
`([A-Z][a-z]+(?:\s+[A-Z][a-z]+)*(?:\s*,\s*[A-Z][a-z]+)*)` at the head of the
input (case-insensitive).  The word groups cannot steal characters needed by
the comma groups (a comma is neither whitespace nor a letter), so greedy
left-to-right matching is exact. -/
def tenantMatchAt (cs : List Char) : Option (List Char) :=
  match letterWord cs with
  | none => none
  | some (w, r) =>
      let p1 := tenantWordGroups (r.length + 1) r
      let p2 := tenantCommaGroups (p1.2.length + 1) p1.2
      some (w ++ p1.1 ++ p2.1)

/-- `compiled_patterns['tenant_name'].search(line)`. -/
def tenantSearchL : List Char → Option (List Char)
  | [] => none
  | c :: rest =>
      match tenantMatchAt (c :: rest) with
      | some g => some g
      | none => tenantSearchL rest

/-- `tenant_name` search on a string. -/
def tenantSearch (s : String) : Option String :=
  (tenantSearchL s.data).map List.asString

/-- The comma groups `(?:,\d{3})*` of the square-feet pattern: repeatedly a
comma followed by exactly three digits.  Giving an iteration back would leave
the scan at a comma, which no later pattern element accepts, so greedy maximal
repetition is exact. -/
def sqftCommaGroups : Nat → List Char → List Char × List Char
  | 0, cs => ([], cs)
  | n + 1, cs =>
      match cs with
      | ',' :: a :: b :: c :: r =>
          if a.isDigit ∧ b.isDigit ∧ c.isDigit then
            let p := sqftCommaGroups n r
            (',' :: a :: b :: c :: p.1, p.2)
          else ([], cs)
      | _ => ([], cs)

/-- The unit token `(?:sq\.?\s*ft\.?|sqft|square\s*feet)` of the square-feet
pattern (case-insensitive), alternatives tried in order. -/
def sqftUnitToken (cs : List Char) : Bool :=
  (match icPrefix ['s', 'q'] cs with
   | some (_, r1) =>
       let r2 := match r1 with
         | '.' :: t => t
         | _ => r1
       let r3 := r2.dropWhile isPySpace
       (icPrefix ['f', 't'] r3).isSome
   | none => false) ||
  (icPrefix ['s', 'q', 'f', 't'] cs).isSome ||
  (match icPrefix ['s', 'q', 'u', 'a', 'r', 'e'] cs with
   | some (_, r1) => (icPrefix ['f', 'e', 'e', 't'] (r1.dropWhile isPySpace)).isSome
   | none => false)

/-- Match attempt of the square-feet pattern
`(\d+(?:,\d{3})*)\s*(?:sq\.?\s*ft\.?|sqft|square\s*feet)` at the head of the
input; on success returns the captured number group. -/
def sqftMatchAt (cs : List Char) : Option (List Char) :=
  let d := cs.takeWhile Char.isDigit
  if d.isEmpty then none
  else
    let p := sqftCommaGroups (cs.length + 1) (cs.drop d.length)
    if sqftUnitToken (p.2.dropWhile isPySpace) then some (d ++ p.1) else none

/-- `compiled_patterns['square_feet'].search(line)`, returning group 1. -/
def sqftSearchL : List Char → Option (List Char)
  | [] => none
  | c :: rest =>
      match sqftMatchAt (c :: rest) with
      | some g => some g
      | none => sqftSearchL rest

/-- `square_feet` search on a string. -/
def sqftSearch (s : String) : Option String :=
  (sqftSearchL s.data).map List.asString

/-- A digit run of bounded length followed by a required character that is not
a digit: `\d{1,m}` directly before a literal separator can only match the full
run (of length at most `m`), since any shorter choice is followed by a digit. -/
def boundedDigits (m : Nat) (cs : List Char) : Option (List Char × List Char) :=
  let d := cs.takeWhile Char.isDigit
  if 1 ≤ d.length ∧ d.length ≤ m then some (d, cs.drop d.length) else none

/-- Match attempt of the date pattern `(\d{1,2}\/\d{1,2}\/\d{2,4})` at the head
of the input; returns the group and the rest after the match. -/
def dateMatchAt (cs : List Char) : Option (List Char × List Char) :=
  match boundedDigits 2 cs with
  | none => none
  | some (d1, r1) =>
      match r1 with
      | '/' :: r2 =>
          match boundedDigits 2 r2 with
          | none => none
          | some (d2, r3) =>
              match r3 with
              | '/' :: r4 =>
                  let y := (r4.takeWhile Char.isDigit).take 4
                  if 2 ≤ y.length then
                    some (d1 ++ '/' :: d2 ++ '/' :: y, r4.drop y.length)
                  else none
              | _ => none
      | _ => none

/-- `re.findall` for the date pattern; every match consumes at least six
characters, so fuel `length + 1` is exact. -/
def dateFindallF : Nat → List Char → List (List Char)
  | 0, _ => []
  | _ + 1, [] => []
  | n + 1, c :: rest =>
      match dateMatchAt (c :: rest) with
      | some (g, r) => g :: dateFindallF n r
      | none => dateFindallF n rest

/-- `compiled_patterns['date'].findall(line)`. -/
def dateFindall (s : String) : List String :=
  (dateFindallF (s.data.length + 1) s.data).map List.asString

/-! ### `datetime.strptime` for the six formats tried by `parse_date` -/

/-- A calendar date as produced by `datetime.date`. -/
structure PyDate where
  year : Nat
  month : Nat
  day : Nat
deriving DecidableEq, Repr

/-- Gregorian leap-year rule used by `datetime`. -/
def isLeap (y : Nat) : Bool := y % 4 = 0 ∧ (y % 100 ≠ 0 ∨ y % 400 = 0)

/-- Days in a month, as validated by the `datetime.date` constructor. -/
def daysInMonth (y m : Nat) : Nat :=
  if m = 2 then (if isLeap y then 29 else 28)
  else if m = 4 ∨ m = 6 ∨ m = 9 ∨ m = 11 then 30
  else 31

/-- The `datetime.date(y, m, d)` constructor: the strptime field regexes
already bound `1 ≤ m ≤ 12` and `1 ≤ d ≤ 31`; the constructor additionally
requires `1 ≤ y` and `d` to exist in the month, else `ValueError`. -/
def mkDate (y m d : Nat) : Option PyDate :=
  if 1 ≤ y ∧ d ≤ daysInMonth y m then some ⟨y, m, d⟩ else none

/-- strptime directive `%m`, regex `(1[0-2]|0[1-9]|[1-9])`.  A two-digit
alternative that matches is always followed by a literal separator in the six
formats, and the one-digit fallback would then require the second digit to be
that separator, so alternation backtracking is unobservable and greedy
first-alternative matching is exact. -/
def parseMonth : List Char → Option (Nat × List Char)
  | c0 :: c1 :: rest =>
      if c0 = '1' ∧ ('0' ≤ c1 ∧ c1 ≤ '2') then some (10 + (c1.toNat - 48), rest)
      else if c0 = '0' ∧ ('1' ≤ c1 ∧ c1 ≤ '9') then some (c1.toNat - 48, rest)
      else if '1' ≤ c0 ∧ c0 ≤ '9' then some (c0.toNat - 48, c1 :: rest)
      else none
  | [c0] => if '1' ≤ c0 ∧ c0 ≤ '9' then some (c0.toNat - 48, []) else none
  | [] => none

/-- strptime directive `%d`, regex `(3[01]|[12]\d|0[1-9]|[1-9])` (same
backtracking argument as for `%m`). -/
def parseDay : List Char → Option (Nat × List Char)
  | c0 :: c1 :: rest =>
      if c0 = '3' ∧ (c1 = '0' ∨ c1 = '1') then some (30 + (c1.toNat - 48), rest)
      else if (c0 = '1' ∨ c0 = '2') ∧ c1.isDigit then
        some ((c0.toNat - 48) * 10 + (c1.toNat - 48), rest)
      else if c0 = '0' ∧ ('1' ≤ c1 ∧ c1 ≤ '9') then some (c1.toNat - 48, rest)
      else if '1' ≤ c0 ∧ c0 ≤ '9' then some (c0.toNat - 48, c1 :: rest)
      else none
  | [c0] => if '1' ≤ c0 ∧ c0 ≤ '9' then some (c0.toNat - 48, []) else none
  | [] => none

/-- strptime directive `%Y`, regex `(\d\d\d\d)` (exactly four digits). -/
def parseY4 : List Char → Option (Nat × List Char)
  | a :: b :: c :: d :: rest =>
      if a.isDigit ∧ b.isDigit ∧ c.isDigit ∧ d.isDigit then
        some (natVal [a, b, c, d], rest)
      else none
  | _ => none

/-- strptime directive `%y`, regex `(\d\d)`; values `0..68` map to `2000..2068`
and `69..99` to `1969..1999`. -/
def parseY2 : List Char → Option (Nat × List Char)
  | a :: b :: rest =>
      if a.isDigit ∧ b.isDigit then
        let v := natVal [a, b]
        some (if v ≤ 68 then 2000 + v else 1900 + v, rest)
      else none
  | _ => none

/-- The six formats tried by `parse_date`, in source order. -/
inductive DateFmt where
  | mdY (sep : Char)
  | mdy (sep : Char)
  | Ymd
  | dmY
deriving DecidableEq, Repr

/-- `datetime.strptime(s, fmt).date()` for one of the six formats: the format
regex must consume the whole string and the date must be constructible. -/
def strptime (f : DateFmt) (s : String) : Option PyDate :=
  let cs := s.data
  let fields : Option (Nat × Nat × Nat) :=
    match f with
    | .mdY sep =>
        match parseMonth cs with
        | some (m, s1 :: r1) =>
            if s1 = sep then
              match parseDay r1 with
              | some (d, s2 :: r2) =>
                  if s2 = sep then
                    match parseY4 r2 with
                    | some (y, []) => some (y, m, d)
                    | _ => none
                  else none
              | _ => none
            else none
        | _ => none
    | .mdy sep =>
        match parseMonth cs with
        | some (m, s1 :: r1) =>
            if s1 = sep then
              match parseDay r1 with
              | some (d, s2 :: r2) =>
                  if s2 = sep then
                    match parseY2 r2 with
                    | some (y, []) => some (y, m, d)
                    | _ => none
                  else none
              | _ => none
            else none
        | _ => none
    | .Ymd =>
        match parseY4 cs with
        | some (y, '-' :: r1) =>
            match parseMonth r1 with
            | some (m, '-' :: r2) =>
                match parseDay r2 with
                | some (d, []) => some (y, m, d)
                | _ => none
            | _ => none
        | _ => none
    | .dmY =>
        match parseDay cs with
        | some (d, '/' :: r1) =>
            match parseMonth r1 with
            | some (m, '/' :: r2) =>
                match parseY4 r2 with
                | some (y, []) => some (y, m, d)
                | _ => none
            | _ => none
        | _ => none
  match fields with
  | some (y, m, d) => mkDate y m d
  | none => none

/-- The `date_formats` list of `parse_date`, in source order:
`%m/%d/%Y, %m-%d-%Y, %m/%d/%y, %m-%d-%y, %Y-%m-%d, %d/%m/%Y`. -/
def dateFormats : List DateFmt :=
  [.mdY '/', .mdY '-', .mdy '/', .mdy '-', .Ymd, .dmY]

/-- The format loop of `parse_date`: the first format that parses the string
to a date with year in `[2000, 2030]` wins; a parse with an out-of-range year
falls through to the next format. -/
def tryFormats : List DateFmt → String → Option PyDate
  | [], _ => none
  | f :: fs, s =>
      match strptime f s with
      | some d => if 2000 ≤ d.year ∧ d.year ≤ 2030 then some d else tryFormats fs s
      | none => tryFormats fs s

/-- `FinancialDataExtractor.parse_date`. -/
def parseDate (s : String) : Option PyDate :=
  if s.isEmpty then none else tryFormats dateFormats (pyStrip s)

/-! ### Records and the extraction engine -/

/-- A Python dict record with the closed key set used by the pipeline; a field
is `some v` exactly when the key is present with value `v`. -/
structure Rec where
  unit_number : Option String := none
  unit_type : Option String := none
  rent_amount : Option ℚ := none
  area_sqft : Option Int := none
  tenant_name : Option String := none
  status : Option String := none
  lease_start : Option PyDate := none
  lease_end : Option PyDate := none
  dates : Option (List String) := none
  source_line : Option Nat := none
  raw_text : Option String := none
deriving DecidableEq, Repr

/-- The empty dict `{}`. -/
def emptyRec : Rec := {}

/-- Python truthiness of an absent-or-string value. -/
def truthyS : Option String → Bool
  | some s => ¬s.isEmpty
  | none => false

/-- Python truthiness of an absent-or-number value (`0` and `0.0` are falsy). -/
def truthyQ : Option ℚ → Bool
  | some v => v ≠ 0
  | none => false

/-- Python truthiness of an absent-or-int value. -/
def truthyZ : Option Int → Bool
  | some v => v ≠ 0
  | none => false

/-- Python truthiness of an absent-or-nat value. -/
def truthyN : Option Nat → Bool
  | some v => v ≠ 0
  | none => false

/-- Python truthiness of an absent-or-date value (date objects are truthy). -/
def truthyD : Option PyDate → Bool
  | some _ => true
  | none => false

/-- Python truthiness of an absent-or-list value. -/
def truthyL : Option (List String) → Bool
  | some l => ¬l.isEmpty
  | none => false

/-- The merge rule of `_consolidate_data` for one key:
`if value and (key not in units[u] or not units[u][key]): units[u][key] = value`. -/
def mergeVal {α : Type} (tf : Option α → Bool) (old new : Option α) : Option α :=
  if tf new ∧ ¬tf old then new else old

/-- Merging one data point into an accumulated unit dict, key by key. -/
def mergeRec (old p : Rec) : Rec where
  unit_number := mergeVal truthyS old.unit_number p.unit_number
  unit_type := mergeVal truthyS old.unit_type p.unit_type
  rent_amount := mergeVal truthyQ old.rent_amount p.rent_amount
  area_sqft := mergeVal truthyZ old.area_sqft p.area_sqft
  tenant_name := mergeVal truthyS old.tenant_name p.tenant_name
  status := mergeVal truthyS old.status p.status
  lease_start := mergeVal truthyD old.lease_start p.lease_start
  lease_end := mergeVal truthyD old.lease_end p.lease_end
  dates := mergeVal truthyL old.dates p.dates
  source_line := mergeVal truthyN old.source_line p.source_line
  raw_text := mergeVal truthyS old.raw_text p.raw_text

/-- The numeric amounts parsed from a line's rent-pattern matches:
`float(match.replace(',', ''))` for each match, skipping `ValueError`s. -/
def amountsOf (line : String) : List ℚ :=
  (rentFindallF (line.data.length + 1) line.data).filterMap pyFloatOfGroup

/-- Python `max(amounts)` on a possibly-empty amounts list (`none` when the
list is empty and no rent is recorded). -/
def maxAmount : List ℚ → Option ℚ
  | [] => none
  | a :: as => some (listMax a as)

/-- The status classification of `_parse_table_row` (case-sensitive substring
tests on the raw line; the regex status matches computed by the source are
unused there). -/
def tableStatus (line : String) : String :=
  if subStr "Vacant" line || subStr "Available" line then "vacant"
  else if subStr "Occupied" line || subStr "Rented" line then "occupied"
  else "unknown"

/-- The `non_names` blacklist of `_parse_table_row`. -/
def tenantBlacklist : List String :=
  ["Unit", "Rent", "Total", "Notice", "Occupied", "Vacant", "Status"]

/-- The tenant-name extraction of `_parse_table_row`: the first proper-case
match, stripped, accepted only on an occupied row when no blacklist word
occurs in it. -/
def tableTenant (line : String) : Option String :=
  match (tenantSearchL line.data).map List.asString with
  | some t =>
      let tn := pyStrip t
      if tableStatus line = "occupied" ∧
          ¬(tenantBlacklist.any (fun w => subStr w tn)) then some tn
      else none
  | none => none

/-- The date assignment of `_parse_table_row`: parsed dates in textual order,
two or more giving `(lease_start, lease_end)`, exactly one giving only
`lease_start`. -/
def tableDates (line : String) : Option PyDate × Option PyDate :=
  match (dateFindall line).filterMap parseDate with
  | d1 :: d2 :: _ => (some d1, some d2)
  | [d1] => (some d1, none)
  | [] => (none, none)

/-- The record dict assembled by `_parse_table_row` before its final
acceptance check. -/
def tableRowRec (line : String) : Rec :=
  { unit_number := unitSearch line
    unit_type := unitTypeSearch line
    rent_amount := maxAmount ((amountsOf line).filter (fun a => a > 100))
    tenant_name := tableTenant line
    status := some (tableStatus line)
    lease_start := (tableDates line).1
    lease_end := (tableDates line).2 }

/-- `FinancialDataExtractor._parse_table_row` on an (already stripped) line:
the assembled record is returned iff `record.get('unit_number')` is truthy and
`record.get('rent_amount')` or `record.get('status')` is. -/
def parseTableRow (line : String) : Option Rec :=
  if truthyS (tableRowRec line).unit_number ∧
      (truthyQ (tableRowRec line).rent_amount ∨
        truthyS (tableRowRec line).status) then
    some (tableRowRec line)
  else none

/-- The status classification of `_extract_from_line` (case-insensitive, with
no `'unknown'` default: the key is absent when no keyword occurs). -/
def lineStatus (line : String) : Option String :=
  let lower := pyLower line
  if subStr "vacant" lower || subStr "available" lower then some "vacant"
  else if subStr "occupied" lower || subStr "rented" lower then some "occupied"
  else none

/-- The record dict assembled by `_extract_from_line`. -/
def lineRec (line : String) : Rec :=
  { unit_number := unitSearch line
    rent_amount := maxAmount (amountsOf line)
    area_sqft := (sqftSearchL line.data).map
      (fun g => (natVal (g.filter (fun c => c ≠ ',')) : Int))
    dates := if (dateFindall line).isEmpty then none else some (dateFindall line)
    tenant_name := tenantSearch line
    status := lineStatus line }

/-- `FinancialDataExtractor._extract_from_line` (fallback method): the
assembled dict is returned iff it is non-empty. -/
def extractFromLine (line : String) : Option Rec :=
  if lineRec line = emptyRec then none else some (lineRec line)

/-- Ordered-dict update of `units[unit_num]`: merge into the existing entry or
append a fresh entry (first merging the point into the empty dict, exactly as
the per-key loop does for a newly created `units[unit_num] = {}`). -/
def upsert : List (String × Rec) → String → Rec → List (String × Rec)
  | [], u, p => [(u, mergeRec emptyRec p)]
  | (k, r) :: rest, u, p =>
      if k = u then (k, mergeRec r p) :: rest
      else (k, r) :: upsert rest u p

/-- One iteration of the grouping loop of `_consolidate_data`: points with a
falsy `unit_number` are skipped. -/
def consolidateStep (acc : List (String × Rec)) (p : Rec) :
    List (String × Rec) :=
  match p.unit_number with
  | some u => if truthyS p.unit_number then upsert acc u p else acc
  | none => acc

/-- The grouping loop of `_consolidate_data`: a Python dict keyed by unit
number, in first-occurrence order. -/
def buildUnits (pts : List Rec) : List (String × Rec) :=
  pts.foldl consolidateStep []

/-- The final loop of `_consolidate_data`: keep unit dicts with a truthy
`unit_number`, defaulting `status` when the key is absent. -/
def finalizeUnit (r : Rec) : Option Rec :=
  if truthyS r.unit_number then
    some (if r.status = none then
            { r with status := some (if truthyS r.tenant_name then "occupied"
                                     else "vacant") }
          else r)
  else none

/-- `FinancialDataExtractor._consolidate_data`. -/
def consolidateData (pts : List Rec) : List Rec :=
  ((buildUnits pts).map Prod.snd).filterMap finalizeUnit

/-- Splitting on a single separator character, with Python `str.split`
semantics (the empty string yields one empty part; a trailing separator yields
a trailing empty part). -/
def splitOnChar (sep : Char) : List Char → List (List Char)
  | [] => [[]]
  | c :: rest =>
      match splitOnChar sep rest with
      | [] => [[c]]
      | g :: gs => if c = sep then [] :: g :: gs else (c :: g) :: gs

/-- Python `text.split('\n')`. -/
def pyLines (s : String) : List String :=
  (splitOnChar '\n' s.data).map List.asString

/-- The per-line test of `_extract_table_data`: the stripped line is non-empty
and contains both a unit-number match and at least one rent match. -/
def tableLineTest (l : String) : Bool :=
  let l' := pyStrip l
  ¬l'.isEmpty ∧ (unitSearchL l'.data).isSome ∧
    ¬(rentFindallF (l'.data.length + 1) l'.data).isEmpty

/-- `FinancialDataExtractor._extract_table_data`. -/
def extractTableData (text : String) : List Rec :=
  (pyLines text).filterMap
    (fun l => if tableLineTest l then parseTableRow (pyStrip l) else none)

/-- `FinancialDataExtractor.extract_structured_data`: the table strategy wins
when it yields any record; otherwise the per-line fallback runs (skipping
stripped lines shorter than 10 characters) and the points are consolidated. -/
def extractStructuredData (text : String) : List Rec :=
  let lines := pyLines text
  let tableData := extractTableData text
  if ¬tableData.isEmpty then tableData
  else
    let pts := lines.enum.filterMap
      (fun li =>
        let l := pyStrip li.2
        if l.length < 10 then none
        else
          (extractFromLine l).map
            (fun r => { r with source_line := some (li.1 + 1),
                               raw_text := some l }))
    consolidateData pts

/-! ### Validation and summary statistics -/

/-- The tenant-name cleanup of `validate_extracted_data`: strip, remove each
artifact substring (re-stripping after each removal). -/
def cleanTenant (t : String) : String :=
  ["$", ",", "rent", "total", "unit"].foldl
    (fun s a => pyStrip (removeAll a s)) (pyStrip t)

/-- Python `str.isalpha()` (ASCII letters; empty string is not alphabetic). -/
def pyIsAlpha (s : String) : Bool := ¬s.isEmpty ∧ s.data.all Char.isAlpha

/-- The tenant-name block of `validate_extracted_data`: a truthy tenant name
is cleaned and kept only when the cleaned name is longer than two characters
and alphabetic once spaces are removed, else set to `None`; a falsy value is
left untouched. -/
def cleanTenantField : Option String → Option String
  | some t =>
      if ¬t.isEmpty then
        let tn := cleanTenant t
        if tn.length > 2 ∧ pyIsAlpha ⟨tn.data.filter (fun c => c ≠ ' ')⟩ then
          some tn
        else none
      else some t
  | none => none

/-- `if not record.get('status'): record['status'] = 'occupied' if
record.get('tenant_name') else 'vacant'` (truthiness-based defaulting). -/
def ensureStatus (r : Rec) : Rec :=
  if ¬truthyS r.status then
    { r with status := some (if truthyS r.tenant_name then "occupied"
                             else "vacant") }
  else r

/-- The per-record body of `validate_extracted_data`.  Records without a truthy
`unit_number` are dropped; rent and area are range-checked but kept unchanged
(out-of-range values only produce a log warning; the numeric value survives the
`float`/`Decimal` and `int` round trips exactly); the tenant name is cleaned
and finally a falsy `status` is defaulted from the cleaned tenant name. -/
def validateRec (r : Rec) : Option Rec :=
  if ¬truthyS r.unit_number then none
  else some (ensureStatus { r with tenant_name := cleanTenantField r.tenant_name })

/-- `FinancialDataExtractor.validate_extracted_data`: never raises, processes
records independently in order. -/
def validateExtractedData (data : List Rec) : List Rec :=
  data.filterMap validateRec

/-- The summary dict built by `extract_summary_statistics` for non-empty
input. -/
structure Summary where
  total_units : Nat
  occupied_units : Nat
  vacant_units : Nat
  occupancy_rate : ℚ
  total_rent : ℚ
  average_rent : ℚ
  total_area : ℚ
  average_area : ℚ
deriving DecidableEq, Repr

/-- The per-record test `record.get('status') == 'occupied'` of the
summarizer (an exact string comparison, not a truthiness test). -/
def isOccupied (r : Rec) : Bool := r.status = some "occupied"

/-- `FinancialDataExtractor.extract_summary_statistics`; `none` models the
empty dict `{}` returned for empty input (no key is present in it). -/
def extractSummaryStatistics (data : List Rec) : Option Summary :=
  if data.isEmpty then none
  else
    let total := data.length
    let occupied := (data.filter isOccupied).length
    let rents := data.filterMap
      (fun r => if truthyQ r.rent_amount then r.rent_amount else none)
    let areas := data.filterMap
      (fun r => if truthyZ r.area_sqft then r.area_sqft else none)
    some
      { total_units := total
        occupied_units := occupied
        vacant_units := total - occupied
        occupancy_rate := if total > 0 then (occupied : ℚ) / (total : ℚ) * 100 else 0
        total_rent := if rents.isEmpty then 0 else (rents.map (id : ℚ → ℚ)).sum
        average_rent := if rents.isEmpty then 0
                        else (rents.map (id : ℚ → ℚ)).sum / (rents.length : ℚ)
        total_area := if areas.isEmpty then 0
                      else ((areas.map (fun a => (a : ℚ))).sum)
        average_area := if areas.isEmpty then 0
                        else ((areas.map (fun a => (a : ℚ))).sum) / (areas.length : ℚ) }

/-- The area-bracket tail of the fallback chain of
`DocumentParser._infer_unit_type` (reached when the rent brackets classify
nothing, and when the area value passes its `isinstance` guard — areas in this
pipeline are always Python `int`s, from `int()` in validation or the integer
default 0). -/
def bracketAreaClassify (area : Int) : String :=
  if area > 1200 then "3BR"
  else if area > 800 then "2BR"
  else if area > 500 then "1BR"
  else if area > 0 then "Studio"
  else "Unknown"

/-- The full rent-then-area fallback chain of `_infer_unit_type`, as it
behaves when both `isinstance(..., (int, float))` guards pass. -/
def bracketClassify (rent : ℚ) (area : Int) : String :=
  if rent > 2000 then "3BR"
  else if rent > 1500 then "2BR"
  else if rent > 1000 then "1BR"
  else if rent > 0 then "Studio"
  else bracketAreaClassify area

/-- `DocumentParser._infer_unit_type`.  The record reaches this function with
`unit_type` read via `data.get('unit_type', '')` and numeric defaults `0`.
`rentIsNum` and `areaIsNum` model the `isinstance(..., (int, float))` guards
on the values read via `data.get('rent_amount', 0)` / `data.get('area_sqft',
0)`: true for a Python `int` or `float` (including the integer default `0`
used when the key is absent), false for a `decimal.Decimal`.  At the
pipeline's only call site (`create_unit_records` on the validated records
returned by `process_document`) every truthy rent has been converted to
`Decimal` by `validate_extracted_data` while an absent or zero rent is still
`int`/`float`, so there `rentIsNum = !truthyQ rent_amount`; areas remain
`int`, so `areaIsNum = true`.  A guarded bracket is equivalent to the source's
`if isinstance(...): if v > b: return ...` chain, which falls through to the
next block when the guard fails or every comparison does. -/
def inferUnitType (rentIsNum areaIsNum : Bool) (data : Rec) : String :=
  let utypeRaw := data.unit_type.getD ""
  let rent := data.rent_amount.getD 0
  let area := data.area_sqft.getD 0
  if ¬utypeRaw.isEmpty ∧ utypeRaw ≠ "Unknown" then
    if subStr "MBL" utypeRaw then
      if subStr "2" utypeRaw then "2BR"
      else if subStr "3" utypeRaw then "3BR"
      else if subStr "1" utypeRaw then "1BR"
      else utypeRaw
    else utypeRaw
  else if rentIsNum ∧ rent > 2000 then "3BR"
  else if rentIsNum ∧ rent > 1500 then "2BR"
  else if rentIsNum ∧ rent > 1000 then "1BR"
  else if rentIsNum ∧ rent > 0 then "Studio"
  else if areaIsNum ∧ area > 1200 then "3BR"
  else if areaIsNum ∧ area > 800 then "2BR"
  else if areaIsNum ∧ area > 500 then "1BR"
  else if areaIsNum ∧ area > 0 then "Studio"
  else "Unknown"

/-! ### The document model and `DocumentParser.process_document` -/

/-- Abstract state of one input PDF as observed through the external libraries.
`pages` holds the native text layer of each page as returned by PyMuPDF's
`page.get_text()`; `plumberText` is the output of `extract_text_pdfplumber`
(an oracle for the pdfplumber library, `""` when it fails or extracts nothing);
`ocrPageTexts` holds the per-page OCR results of `extract_text_from_image`
(one rasterized image per page, each already stripped); `openOk` is whether
`fitz.open` succeeds on the file. -/
structure Doc where
  pathExists : Bool
  openOk : Bool
  pages : List String
  plumberText : String
  ocrAvailable : Bool
  ocrPageTexts : List String
deriving Repr

/-- `DocumentParser.is_machine_readable`: zero pages give `false`; otherwise
the stripped text lengths of the first `min 3 n` pages are summed and compared
against the threshold 20.  Any exception (e.g. `fitz.open` failing) yields
`false`. -/
def isMachineReadable (doc : Doc) : Bool :=
  if ¬doc.openOk then false
  else if doc.pages.length = 0 then false
  else
    ((doc.pages.take (min 3 doc.pages.length)).map
        (fun t => (pyStrip t).length)).sum > 20

/-- `DocumentParser.extract_text_pymupdf`: pages with non-empty stripped text
are rendered with a page marker and joined by blank lines; exceptions yield
`""`. -/
def extractTextPymupdf (doc : Doc) : String :=
  if ¬doc.openOk then ""
  else
    String.intercalate "\n\n"
      ((doc.pages.enum.filterMap
        (fun it =>
          if (pyStrip it.2).isEmpty then none
          else some ("--- Page " ++ toString (it.1 + 1) ++ " ---\n" ++ it.2))))

/-- `OCRProcessor.extract_text_from_pdf`: one image per page; with no images
the result is `""`; otherwise pages with non-empty recognised text are rendered
with a page marker and joined by blank lines. -/
def extractTextFromPdfOcr (doc : Doc) : String :=
  if doc.ocrPageTexts.isEmpty then ""
  else
    String.intercalate "\n\n"
      (doc.ocrPageTexts.enum.filterMap
        (fun it =>
          if it.2.isEmpty then none
          else some ("--- Page " ++ toString (it.1 + 1) ++ " ---\n" ++ it.2)))

/-- The four failure conditions a caller of the pipeline can observe.
`invalidDocument` is listed in the spec's taxonomy; `process_document` itself
raises `FileNotFoundError` (`notFound`), `RuntimeError` for a missing OCR
backend (`ocrUnavailable`) and `ValueError` for empty final text
(`noTextExtracted`). -/
inductive PipelineError where
  | notFound
  | invalidDocument
  | ocrUnavailable
  | noTextExtracted
deriving DecidableEq, Repr

/-- `DocumentParser.process_document`: the main pipeline entry point. -/
def processDocument (doc : Doc) : Except PipelineError (String × List Rec) :=
  if ¬doc.pathExists then .error .notFound
  else
    let textOrErr : Except PipelineError String :=
      if isMachineReadable doc then
        let t := doc.plumberText
        .ok (if (pyStrip t).isEmpty then extractTextPymupdf doc else t)
      else if ¬doc.ocrAvailable then .error .ocrUnavailable
      else .ok (extractTextFromPdfOcr doc)
    match textOrErr with
    | .error e => .error e
    | .ok text =>
        if (pyStrip text).isEmpty then .error .noTextExtracted
        else .ok (text, validateExtractedData (extractStructuredData text))

/-! ### Helper lemmas -/

theorem length_filter_add_length_filter_not {α : Type} (p : α → Bool)
    (l : List α) :
    (l.filter p).length + (l.filter (fun a => !(p a))).length = l.length := by
  induction l with
  | nil => simp
  | cons a l ih =>
      by_cases h : p a <;> simp [List.filter_cons, h] <;> omega

/-- Concrete example records used by several witnesses. -/
def exRecUnknown : Rec :=
  { unit_number := some "02-201", status := some "unknown" }

def exRecOccupied : Rec :=
  { unit_number := some "02-202", rent_amount := some 1500,
    status := some "occupied" }

end RentRoll

namespace RentRoll

/-! ### C7: summary statistics on the empty record list -/

/-- C7 counterexample: on the empty record list `extract_summary_statistics`
returns the empty dict `{}` (modelled `none`); no count, sum, average or rate
field is present in it, refuting the claim that every such field is present
and equal to zero. -/
theorem summary_of_empty_is_empty_dict :
    extractSummaryStatistics ([] : List Rec) = none := by
  rfl

/-- C7 (amended): on the empty record list the summarizer does not fail and
returns the empty dict containing no fields; it returns a populated summary
exactly on non-empty input. -/
theorem summary_empty_input_behaviour :
    extractSummaryStatistics ([] : List Rec) = none ∧
    ∀ data : List Rec, data ≠ [] → (extractSummaryStatistics data).isSome := by
  refine ⟨rfl, ?_⟩
  intro data h
  simp [extractSummaryStatistics, List.isEmpty_iff, h]

/-- C7 witness: the amended theorem applied to a concrete one-record list. -/
theorem summary_empty_input_behaviour_witness :
    ([exRecUnknown] : List Rec) ≠ [] ∧
      (extractSummaryStatistics [exRecUnknown]).isSome :=
  ⟨by decide, summary_empty_input_behaviour.2 [exRecUnknown] (by decide)⟩

/-! ### C9: vacant-unit accounting in the summarizer -/

/-- C9: for every non-empty record list the summarizer counts as occupied
exactly the records with status `'occupied'`, counts every other record
(including status `'unknown'`) as vacant via `vacant = total - occupied`, so
`occupied + vacant = total`, and the occupancy rate is
`occupied / total * 100`. -/
theorem summary_vacant_accounting (data : List Rec) (h : data ≠ []) :
    ∃ s, extractSummaryStatistics data = some s ∧
      s.total_units = data.length ∧
      s.occupied_units = (data.filter isOccupied).length ∧
      s.vacant_units = s.total_units - s.occupied_units ∧
      s.occupied_units + s.vacant_units = s.total_units ∧
      s.vacant_units = (data.filter (fun r => !isOccupied r)).length ∧
      s.occupancy_rate = (s.occupied_units : ℚ) / (s.total_units : ℚ) * 100 := by
  have hne : data.isEmpty = false := by
    simpa [List.isEmpty_iff] using h
  have hlen : 0 < data.length := List.length_pos.mpr h
  have hle : (data.filter isOccupied).length ≤ data.length :=
    List.length_filter_le _ _
  have hsum := length_filter_add_length_filter_not isOccupied data
  unfold extractSummaryStatistics
  simp only [hne, Bool.false_eq_true, if_false]
  refine ⟨_, rfl, rfl, rfl, rfl, ?_, ?_, ?_⟩
  · dsimp only
    omega
  · dsimp only
    omega
  · dsimp only
    simp [hlen]

/-- C9 witness: applied to a concrete two-record list containing a record with
status `'unknown'`, which is counted as vacant. -/
theorem summary_vacant_accounting_witness :
    ([exRecUnknown, exRecOccupied] : List Rec) ≠ [] ∧
      ∃ s, extractSummaryStatistics [exRecUnknown, exRecOccupied] = some s ∧
        s.total_units = [exRecUnknown, exRecOccupied].length ∧
        s.occupied_units =
          ([exRecUnknown, exRecOccupied].filter isOccupied).length ∧
        s.vacant_units = s.total_units - s.occupied_units ∧
        s.occupied_units + s.vacant_units = s.total_units ∧
        s.vacant_units = ([exRecUnknown, exRecOccupied].filter
          (fun r => !isOccupied r)).length ∧
        s.occupancy_rate = (s.occupied_units : ℚ) / (s.total_units : ℚ) * 100 :=
  ⟨by decide, summary_vacant_accounting [exRecUnknown, exRecOccupied] (by decide)⟩

/-! ### C10: `parse_date` format and year-range behaviour -/

theorem tryFormats_eq_some {fs : List DateFmt} {s : String} {d : PyDate}
    (h : tryFormats fs s = some d) :
    2000 ≤ d.year ∧ d.year ≤ 2030 ∧ ∃ f ∈ fs, strptime f s = some d := by
  induction fs with
  | nil => simp [tryFormats] at h
  | cons f fs ih =>
      rw [tryFormats] at h
      cases hf : strptime f s with
      | none =>
          rw [hf] at h
          dsimp only at h
          obtain ⟨h1, h2, g, hg, hgs⟩ := ih h
          exact ⟨h1, h2, g, List.mem_cons_of_mem _ hg, hgs⟩
      | some d' =>
          rw [hf] at h
          dsimp only at h
          by_cases hr : 2000 ≤ d'.year ∧ d'.year ≤ 2030
          · rw [if_pos hr] at h
            obtain rfl : d' = d := Option.some.inj h
            exact ⟨hr.1, hr.2, f, List.mem_cons_self _ _, hf⟩
          · rw [if_neg hr] at h
            obtain ⟨h1, h2, g, hg, hgs⟩ := ih h
            exact ⟨h1, h2, g, List.mem_cons_of_mem _ hg, hgs⟩

theorem tryFormats_eq_none {fs : List DateFmt} {s : String}
    (h : ∀ f ∈ fs, ∀ d, strptime f s = some d → d.year < 2000 ∨ 2030 < d.year) :
    tryFormats fs s = none := by
  induction fs with
  | nil => rfl
  | cons f fs ih =>
      rw [tryFormats]
      cases hf : strptime f s with
      | none =>
          exact ih fun g hg => h g (List.mem_cons_of_mem _ hg)
      | some d' =>
          have hout := h f (List.mem_cons_self _ _) d' hf
          dsimp only
          rw [if_neg (by omega)]
          exact ih fun g hg => h g (List.mem_cons_of_mem _ hg)

/-- C10: `parse_date` is total (no exception escapes the format loop) and
returns a date exactly through the six fixed formats restricted to years in
`[2000, 2030]`: every returned date comes from one of the six formats applied
to the stripped input and has its year in that closed range, and whenever
every format either fails or parses to an out-of-range year the result is
`None` (so such lease dates are silently absent). -/
theorem parseDate_characterisation :
    (∀ s d, parseDate s = some d →
      2000 ≤ d.year ∧ d.year ≤ 2030 ∧
        ∃ f ∈ dateFormats, strptime f (pyStrip s) = some d) ∧
    (∀ s, (∀ f ∈ dateFormats, ∀ d, strptime f (pyStrip s) = some d →
            d.year < 2000 ∨ 2030 < d.year) →
      parseDate s = none) := by
  constructor
  · intro s d h
    rw [parseDate] at h
    by_cases he : s.isEmpty
    · rw [if_pos he] at h
      exact absurd h (by simp)
    · rw [if_neg he] at h
      exact tryFormats_eq_some h
  · intro s h
    rw [parseDate]
    by_cases he : s.isEmpty
    · rw [if_pos he]
    · rw [if_neg he]
      exact tryFormats_eq_none h

/-- C10 witness: the characterisation applied at concrete inputs — a parseable
date inside the year range, and a date whose only parse (`%m/%d/%y`, year
1999) is out of range and is therefore dropped. -/
theorem parseDate_characterisation_witness :
    (parseDate "12/31/2024" = some ⟨2024, 12, 31⟩ ∧
      2000 ≤ (2024 : Nat) ∧ (2024 : Nat) ≤ 2030 ∧
        ∃ f ∈ dateFormats,
          strptime f (pyStrip "12/31/2024") = some ⟨2024, 12, 31⟩) ∧
    parseDate "12/31/99" = none :=
  ⟨⟨by decide,
    parseDate_characterisation.1 "12/31/2024" ⟨2024, 12, 31⟩ (by decide)⟩,
    parseDate_characterisation.2 "12/31/99" (by decide)⟩

/-! ### C6: the validator's record-preservation contract -/

theorem ensureStatus_unit_number (r : Rec) :
    (ensureStatus r).unit_number = r.unit_number := by
  unfold ensureStatus
  split <;> rfl

theorem ensureStatus_rent_amount (r : Rec) :
    (ensureStatus r).rent_amount = r.rent_amount := by
  unfold ensureStatus
  split <;> rfl

theorem ensureStatus_area_sqft (r : Rec) :
    (ensureStatus r).area_sqft = r.area_sqft := by
  unfold ensureStatus
  split <;> rfl

theorem ensureStatus_tenant_name (r : Rec) :
    (ensureStatus r).tenant_name = r.tenant_name := by
  unfold ensureStatus
  split <;> rfl

/-- A concrete record whose area lies far outside the plausible range. -/
def exRecBigArea : Rec :=
  { unit_number := some "03-303", area_sqft := some 15000 }

/-- C6: `validate_extracted_data` is a total function (never raises) that
processes records independently; a record without a truthy `unit_number` is
excluded entirely; every other record is retained with `unit_number`,
`rent_amount` and `area_sqft` unchanged (out-of-range rent and area only log a
warning); a non-empty tenant name is kept exactly when the artifact-stripped
name is longer than two characters and alphabetic with spaces removed, else
nulled while the record itself survives.  In particular a record with
`area_sqft = 15000` is retained with `area_sqft = 15000`. -/
theorem validate_preserves_records :
    (∀ data : List Rec, validateExtractedData data = data.filterMap validateRec) ∧
    (∀ r : Rec, truthyS r.unit_number = false → validateRec r = none) ∧
    (∀ r : Rec, truthyS r.unit_number = true →
      ∃ r', validateRec r = some r' ∧
        r'.unit_number = r.unit_number ∧
        r'.rent_amount = r.rent_amount ∧
        r'.area_sqft = r.area_sqft ∧
        ∀ t : String, r.tenant_name = some t → t ≠ "" →
          r'.tenant_name =
            (if (cleanTenant t).length > 2 ∧
                pyIsAlpha ⟨(cleanTenant t).data.filter (fun c => c ≠ ' ')⟩ then
              some (cleanTenant t)
            else none)) ∧
    validateExtractedData [exRecBigArea] =
      [{ unit_number := some "03-303", area_sqft := some 15000,
         status := some "vacant" }] := by
  refine ⟨fun _ => rfl, ?_, ?_, by decide⟩
  · intro r h
    unfold validateRec
    rw [if_pos (by simp [h])]
  · intro r h
    unfold validateRec
    rw [if_neg (by simp [h])]
    refine ⟨_, rfl, ?_, ?_, ?_, ?_⟩
    · rw [ensureStatus_unit_number]
    · rw [ensureStatus_rent_amount]
    · rw [ensureStatus_area_sqft]
    · intro t ht hne
      have hem : t.isEmpty = false := by
        rw [Bool.eq_false_iff]
        intro hem
        exact hne ((String.isEmpty_iff t).mp hem)
      rw [ensureStatus_tenant_name]
      simp [cleanTenantField, ht, hem]

/-- C6 witness: the retention part applied to the concrete out-of-range-area
record, and the exclusion part applied to a record with no unit number. -/
theorem validate_preserves_records_witness :
    (truthyS (emptyRec.unit_number) = false ∧ validateRec emptyRec = none) ∧
    (truthyS (exRecBigArea.unit_number) = true ∧
      ∃ r', validateRec exRecBigArea = some r' ∧
        r'.unit_number = exRecBigArea.unit_number ∧
        r'.rent_amount = exRecBigArea.rent_amount ∧
        r'.area_sqft = exRecBigArea.area_sqft ∧
        ∀ t : String, exRecBigArea.tenant_name = some t → t ≠ "" →
          r'.tenant_name =
            (if (cleanTenant t).length > 2 ∧
                pyIsAlpha ⟨(cleanTenant t).data.filter (fun c => c ≠ ' ')⟩ then
              some (cleanTenant t)
            else none)) :=
  ⟨⟨by decide, validate_preserves_records.2.1 emptyRec (by decide)⟩,
   ⟨by decide, validate_preserves_records.2.2.1 exRecBigArea (by decide)⟩⟩

/-! ### C5: unit-type inference -/

theorem getD_eq_zero_of_not_truthyQ {x : Option ℚ} (h : truthyQ x = false) :
    x.getD 0 = 0 := by
  cases x with
  | none => rfl
  | some v =>
      have hv : v = 0 := by
        have h' := h
        unfold truthyQ at h'
        exact not_not.mp (of_decide_eq_false h')
      rw [hv]
      rfl

/-- C5 counterexample, two independent failures of the claimed rule.
First, a record with the explicit non-MBL unit-type code `"XY99"` and a raw
`float` rent 1800: the claim's fallback order ("otherwise the rent brackets
apply") predicts `"2BR"` (`bracketClassify 1800 0 = "2BR"`), but
`_infer_unit_type` returns every explicit non-`'Unknown'` code verbatim.
Second, an extracted record with no explicit type and rent 1800 as it actually
reaches the function (`create_unit_records` on validated data, where every
truthy rent is a `Decimal` and fails the `isinstance(rent_amount, (int,
float))` guard, i.e. `rentIsNum = false`): the rent brackets are skipped
entirely and the result is `"Unknown"`, not the claimed `"2BR"`. -/
theorem inferUnitType_explicit_code_cex :
    (subStr "MBL" "XY99" = false ∧
      bracketClassify 1800 0 = "2BR" ∧
      inferUnitType true true
        { unit_type := some "XY99", rent_amount := some 1800 } = "XY99" ∧
      inferUnitType true true
        { unit_type := some "XY99", rent_amount := some 1800 } ≠ "2BR") ∧
    ((!truthyQ (some (1800 : ℚ))) = false ∧
      inferUnitType false true { rent_amount := some 1800 } = "Unknown" ∧
      inferUnitType false true { rent_amount := some 1800 } ≠ "2BR") := by
  refine ⟨⟨by decide, by decide, by decide, by decide⟩,
    ⟨by decide, by decide, by decide⟩⟩

/-- C5 (amended): with an explicit unit type (non-empty and not `'Unknown'`),
codes containing `MBL` are mapped by checking the digit substrings `2`, `3`,
`1` in that order to `2BR`/`3BR`/`1BR`, and an MBL code with none of those
digits, like any non-MBL explicit code, is returned verbatim with the brackets
never consulted.  Without an explicit unit type, the rent brackets
(`>2000→3BR, >1500→2BR, >1000→1BR, >0→Studio`) apply only when the rent value
passes its `isinstance(int/float)` guard, then the area brackets
(`>1200→3BR, >800→2BR, >500→1BR, >0→Studio`), else `"Unknown"`.  In the
pipeline the guard is `!truthyQ rent_amount` (validation turns every truthy
rent into a `Decimal`), under which only the area brackets ever classify —
so rent 1800 with no explicit type yields `"Unknown"` in the program.  The
spec's rent examples (1800 → `2BR`, 2500 → `3BR`) hold only for a raw
`int`/`float` rent that never went through validation; the area example
(600 → `1BR`) holds. -/
theorem inferUnitType_rules :
    (∀ (bi ba : Bool) (data : Rec) (u : String), data.unit_type = some u →
      u.isEmpty = false → u ≠ "Unknown" → subStr "MBL" u = true →
      inferUnitType bi ba data =
        (if subStr "2" u then "2BR"
         else if subStr "3" u then "3BR"
         else if subStr "1" u then "1BR"
         else u)) ∧
    (∀ (bi ba : Bool) (data : Rec) (u : String), data.unit_type = some u →
      u.isEmpty = false → u ≠ "Unknown" → subStr "MBL" u = false →
      inferUnitType bi ba data = u) ∧
    (∀ data : Rec,
      data.unit_type = none ∨ data.unit_type = some "" ∨
        data.unit_type = some "Unknown" →
      inferUnitType true true data =
        bracketClassify (data.rent_amount.getD 0) (data.area_sqft.getD 0)) ∧
    (∀ data : Rec,
      data.unit_type = none ∨ data.unit_type = some "" ∨
        data.unit_type = some "Unknown" →
      inferUnitType (!truthyQ data.rent_amount) true data =
        bracketAreaClassify (data.area_sqft.getD 0)) ∧
    inferUnitType true true { rent_amount := some 1800 } = "2BR" ∧
    inferUnitType true true { rent_amount := some 2500 } = "3BR" ∧
    inferUnitType true true { area_sqft := some 600 } = "1BR" ∧
    inferUnitType false true { rent_amount := some 1800 } = "Unknown" := by
  have hq1 : ¬((0 : ℚ) > 2000) := by decide
  have hq2 : ¬((0 : ℚ) > 1500) := by decide
  have hq3 : ¬((0 : ℚ) > 1000) := by decide
  have hq4 : ¬((0 : ℚ) > 0) := by decide
  refine ⟨?_, ?_, ?_, ?_, by decide, by decide, by decide, by decide⟩
  · intro bi ba data u hu hne hunk hmbl
    simp [inferUnitType, hu, hne, hunk, hmbl]
  · intro bi ba data u hu hne hunk hmbl
    simp [inferUnitType, hu, hne, hunk, hmbl]
  · intro data hu
    rcases hu with h | h | h
    · simp [inferUnitType, bracketClassify, bracketAreaClassify, h]
      exact fun h' => absurd h' (by decide)
    · simp [inferUnitType, bracketClassify, bracketAreaClassify, h]
      exact fun h' => absurd h' (by decide)
    · simp [inferUnitType, bracketClassify, bracketAreaClassify, h]
  · intro data hu
    cases ht : truthyQ data.rent_amount with
    | true =>
        rcases hu with h | h | h
        · simp [inferUnitType, bracketAreaClassify, h, ht]
          exact fun h' => absurd h' (by decide)
        · simp [inferUnitType, bracketAreaClassify, h, ht]
          exact fun h' => absurd h' (by decide)
        · simp [inferUnitType, bracketAreaClassify, h, ht]
    | false =>
        have h0 : data.rent_amount.getD 0 = 0 :=
          getD_eq_zero_of_not_truthyQ ht
        rcases hu with h | h | h
        · simp [inferUnitType, bracketAreaClassify, h, ht, h0, hq1, hq2,
            hq3, hq4]
          exact fun h' => absurd h' (by decide)
        · simp [inferUnitType, bracketAreaClassify, h, ht, h0, hq1, hq2,
            hq3, hq4]
          exact fun h' => absurd h' (by decide)
        · simp [inferUnitType, bracketAreaClassify, h, ht, h0, hq1, hq2,
            hq3, hq4]

/-- C5 witness: the amended rules applied at concrete records — the MBL code
`MBL2AC60`, the non-MBL code `XY12` (under a failed rent guard, as for a
validated `Decimal` rent), an `'Unknown'` explicit type falling back to the
brackets, and a validated record with truthy rent 1800 where the pipeline
guard `!truthyQ` skips the rent brackets. -/
theorem inferUnitType_rules_witness :
    (({ unit_type := some "MBL2AC60" } : Rec).unit_type = some "MBL2AC60" ∧
      inferUnitType true true { unit_type := some "MBL2AC60" } =
        (if subStr "2" "MBL2AC60" then "2BR"
         else if subStr "3" "MBL2AC60" then "3BR"
         else if subStr "1" "MBL2AC60" then "1BR"
         else "MBL2AC60")) ∧
    inferUnitType false true { unit_type := some "XY12" } = "XY12" ∧
    inferUnitType true true
      { unit_type := some "Unknown", area_sqft := some 900 } =
      bracketClassify 0 900 ∧
    inferUnitType (!truthyQ (some (1800 : ℚ))) true
      { rent_amount := some 1800 } = bracketAreaClassify 0 :=
  ⟨⟨rfl, inferUnitType_rules.1 true true { unit_type := some "MBL2AC60" }
      "MBL2AC60" rfl (by decide) (by decide) (by decide)⟩,
   inferUnitType_rules.2.1 false true { unit_type := some "XY12" } "XY12" rfl
      (by decide) (by decide) (by decide),
   inferUnitType_rules.2.2.1
      { unit_type := some "Unknown", area_sqft := some 900 }
      (Or.inr (Or.inr rfl)),
   inferUnitType_rules.2.2.2.1 { rent_amount := some 1800 } (Or.inl rfl)⟩

/-! ### C4: consolidation merges with first-non-empty-wins -/

/-- Ordered-dict lookup. -/
def assocFind : List (String × Rec) → String → Option Rec
  | [], _ => none
  | (k, r) :: rest, u => if k = u then some r else assocFind rest u

/-- Membership of a data point in the dict group of unit `u`. -/
def inGroup (u : String) (p : Rec) : Bool :=
  decide (p.unit_number = some u) && truthyS p.unit_number

/-- The data points contributing to unit `u`, in extraction order. -/
def groupFor (u : String) (pts : List Rec) : List Rec :=
  pts.filter (inGroup u)

/-- The first element of a list that is truthy, if any — "first-non-empty-wins
in extraction order". -/
def firstTruthy {α : Type} (tf : Option α → Bool) :
    List (Option α) → Option α
  | [] => none
  | x :: xs => if tf x then x else firstTruthy tf xs

theorem assocFind_upsert_same (acc : List (String × Rec)) (u : String)
    (p : Rec) :
    assocFind (upsert acc u p) u =
      some (mergeRec ((assocFind acc u).getD emptyRec) p) := by
  induction acc with
  | nil => simp [upsert, assocFind]
  | cons kv rest ih =>
      obtain ⟨k, r⟩ := kv
      by_cases h : k = u
      · simp [upsert, assocFind, h]
      · simp [upsert, assocFind, h, ih]

theorem assocFind_upsert_ne (acc : List (String × Rec)) (v u : String)
    (p : Rec) (h : v ≠ u) :
    assocFind (upsert acc v p) u = assocFind acc u := by
  induction acc with
  | nil => simp [upsert, assocFind, h]
  | cons kv rest ih =>
      obtain ⟨k, r⟩ := kv
      by_cases hk : k = v
      · subst hk
        simp [upsert, assocFind, h]
      · simp [upsert, assocFind, hk, ih]

theorem assocFind_foldl_consolidateStep (pts : List Rec)
    (acc : List (String × Rec)) (u : String) :
    assocFind (pts.foldl consolidateStep acc) u =
      (match assocFind acc u with
       | some r => some ((groupFor u pts).foldl mergeRec r)
       | none =>
           if (groupFor u pts).isEmpty then none
           else some ((groupFor u pts).foldl mergeRec emptyRec)) := by
  induction pts generalizing acc with
  | nil =>
      cases h : assocFind acc u <;> simp [groupFor, h]
  | cons p pts ih =>
      rw [List.foldl_cons, ih (consolidateStep acc p)]
      by_cases hg : inGroup u p = true
      · have hu : p.unit_number = some u := by
          have := hg
          unfold inGroup at this
          exact of_decide_eq_true (Bool.and_elim_left this)
        have ht : truthyS p.unit_number = true := by
          have := hg
          unfold inGroup at this
          exact Bool.and_elim_right this
        have hstep : consolidateStep acc p = upsert acc u p := by
          unfold consolidateStep
          rw [hu]
          dsimp only
          rw [if_pos (hu ▸ ht)]
        have hgrp : groupFor u (p :: pts) = p :: groupFor u pts := by
          simp [groupFor, List.filter_cons, hg]
        rw [hstep, assocFind_upsert_same, hgrp]
        cases hacc : assocFind acc u <;> simp
      · have hgrp : groupFor u (p :: pts) = groupFor u pts := by
          simp [groupFor, List.filter_cons, hg]
        have hstep : assocFind (consolidateStep acc p) u = assocFind acc u := by
          unfold consolidateStep
          cases hpu : p.unit_number with
          | none => rfl
          | some v =>
              dsimp only
              by_cases htv : truthyS (some v) = true
              · rw [if_pos htv]
                have hvu : v ≠ u := by
                  intro he
                  subst he
                  apply hg
                  unfold inGroup
                  rw [hpu, htv, decide_eq_true rfl]
                  rfl
                exact assocFind_upsert_ne acc v u p hvu
              · rw [if_neg htv]
        rw [hstep, hgrp]

theorem foldl_mergeVal_of_truthy {α : Type} (tf : Option α → Bool)
    (acc : Option α) (h : tf acc = true) (xs : List (Option α)) :
    xs.foldl (mergeVal tf) acc = acc := by
  induction xs with
  | nil => rfl
  | cons x xs ih =>
      rw [List.foldl_cons]
      have hstep : mergeVal tf acc x = acc := by
        unfold mergeVal
        rw [if_neg]
        simp [h]
      rw [hstep, ih]

theorem foldl_mergeVal_none {α : Type} (tf : Option α → Bool)
    (h0 : tf (none : Option α) = false) (xs : List (Option α)) :
    xs.foldl (mergeVal tf) none = firstTruthy tf xs := by
  induction xs with
  | nil => rfl
  | cons x xs ih =>
      rw [List.foldl_cons, firstTruthy]
      by_cases hx : tf x = true
      · have hstep : mergeVal tf none x = x := by
          unfold mergeVal
          rw [if_pos]
          simp [hx, h0]
        rw [hstep, if_pos hx]
        exact foldl_mergeVal_of_truthy tf x hx xs
      · have hstep : mergeVal tf none x = none := by
          unfold mergeVal
          rw [if_neg]
          simp [hx]
        rw [hstep, if_neg hx, ih]

theorem foldl_mergeRec_rent_amount (xs : List Rec) (r : Rec) :
    (xs.foldl mergeRec r).rent_amount =
      (xs.map (fun p => p.rent_amount)).foldl (mergeVal truthyQ)
        r.rent_amount := by
  induction xs generalizing r with
  | nil => rfl
  | cons p xs ih =>
      rw [List.foldl_cons, List.map_cons, List.foldl_cons]
      exact ih (mergeRec r p)

theorem foldl_mergeRec_unit_type (xs : List Rec) (r : Rec) :
    (xs.foldl mergeRec r).unit_type =
      (xs.map (fun p => p.unit_type)).foldl (mergeVal truthyS)
        r.unit_type := by
  induction xs generalizing r with
  | nil => rfl
  | cons p xs ih =>
      rw [List.foldl_cons, List.map_cons, List.foldl_cons]
      exact ih (mergeRec r p)

theorem foldl_mergeRec_tenant_name (xs : List Rec) (r : Rec) :
    (xs.foldl mergeRec r).tenant_name =
      (xs.map (fun p => p.tenant_name)).foldl (mergeVal truthyS)
        r.tenant_name := by
  induction xs generalizing r with
  | nil => rfl
  | cons p xs ih =>
      rw [List.foldl_cons, List.map_cons, List.foldl_cons]
      exact ih (mergeRec r p)

theorem foldl_mergeRec_area_sqft (xs : List Rec) (r : Rec) :
    (xs.foldl mergeRec r).area_sqft =
      (xs.map (fun p => p.area_sqft)).foldl (mergeVal truthyZ)
        r.area_sqft := by
  induction xs generalizing r with
  | nil => rfl
  | cons p xs ih =>
      rw [List.foldl_cons, List.map_cons, List.foldl_cons]
      exact ih (mergeRec r p)

/-- C4: consolidation groups the raw field-sets by `unit_number` (in
first-occurrence order) and merges every group left-to-right with the
per-field rule "first non-empty (truthy) value wins in extraction order" —
shown here for the rent, unit-type, tenant-name and area fields.  In
particular consolidating two sets for unit `01-101` carrying rents 1500 and
1600 yields one record with `rent_amount = 1500` (the earlier value). -/
theorem consolidation_first_wins :
    (∀ (pts : List Rec) (u : String),
      assocFind (buildUnits pts) u =
        (if (groupFor u pts).isEmpty then none
         else some ((groupFor u pts).foldl mergeRec emptyRec))) ∧
    (∀ xs : List Rec,
      (xs.foldl mergeRec emptyRec).rent_amount =
        firstTruthy truthyQ (xs.map (fun p => p.rent_amount)) ∧
      (xs.foldl mergeRec emptyRec).unit_type =
        firstTruthy truthyS (xs.map (fun p => p.unit_type)) ∧
      (xs.foldl mergeRec emptyRec).tenant_name =
        firstTruthy truthyS (xs.map (fun p => p.tenant_name)) ∧
      (xs.foldl mergeRec emptyRec).area_sqft =
        firstTruthy truthyZ (xs.map (fun p => p.area_sqft))) ∧
    consolidateData
        [{ unit_number := some "01-101", rent_amount := some 1500 },
         { unit_number := some "01-101", rent_amount := some 1600 }] =
      [{ unit_number := some "01-101", rent_amount := some 1500,
         status := some "vacant" }] := by
  refine ⟨?_, ?_, by decide⟩
  · intro pts u
    rw [buildUnits, assocFind_foldl_consolidateStep pts [] u]
    rfl
  · intro xs
    refine ⟨?_, ?_, ?_, ?_⟩
    · rw [foldl_mergeRec_rent_amount]
      exact foldl_mergeVal_none truthyQ rfl _
    · rw [foldl_mergeRec_unit_type]
      exact foldl_mergeVal_none truthyS rfl _
    · rw [foldl_mergeRec_tenant_name]
      exact foldl_mergeVal_none truthyS rfl _
    · rw [foldl_mergeRec_area_sqft]
      exact foldl_mergeVal_none truthyZ rfl _

/-! ### C3: rent-amount selection -/

/-- The spec's tie-break example line. -/
def exampleLine : String := "01-101 MBL2AC60 $50.00 $1,511.00 Occupied"

/-- A line whose parsed amounts (45.00 and 20.00) are all at most 100. -/
def smallFeeLine : String := "Cleaning fee $45.00 and fee $20.00 due"

theorem listMax_mem_le (a : ℚ) (l : List ℚ) :
    listMax a l ∈ a :: l ∧ ∀ x ∈ a :: l, x ≤ listMax a l := by
  induction l generalizing a with
  | nil =>
      refine ⟨List.mem_cons_self _ _, ?_⟩
      intro x hx
      rcases List.mem_cons.mp hx with rfl | hx
      · exact le_refl _
      · exact absurd hx (List.not_mem_nil x)
  | cons b l ih =>
      obtain ⟨ihm, ihb⟩ := ih (max a b)
      have heq : listMax a (b :: l) = listMax (max a b) l := rfl
      constructor
      · rw [heq]
        rcases List.mem_cons.mp ihm with he | hl
        · rw [he]
          rcases max_choice a b with h | h <;> rw [h] <;> simp
        · exact List.mem_cons_of_mem _ (List.mem_cons_of_mem _ hl)
      · intro x hx
        rw [heq]
        have hmab : max a b ≤ listMax (max a b) l :=
          ihb _ (List.mem_cons_self _ _)
        rcases List.mem_cons.mp hx with rfl | hx
        · exact le_trans (le_max_left _ _) hmab
        · rcases List.mem_cons.mp hx with rfl | hx
          · exact le_trans (le_max_right _ _) hmab
          · exact ihb x (List.mem_cons_of_mem _ hx)

/-- C3 counterexample: on the line `"Cleaning fee $45.00 and fee $20.00 due"`
two currency-like tokens match and both values are at most 100, yet the line
fallback strategy records `rent_amount = 45.00` — the claimed rule ("the
largest matched value exceeding 100 is selected, filtering out smaller
amounts") would record no value at all, and 45 does not exceed 100. -/
theorem fallback_rent_no_filter_cex :
    amountsOf smallFeeLine = [45, 20] ∧
    (extractFromLine smallFeeLine).bind (fun r => r.rent_amount) = some 45 ∧
    ¬((45 : ℚ) > 100) ∧
    maxAmount ((amountsOf smallFeeLine).filter (fun a => a > 100)) = none := by
  refine ⟨by decide, by decide, by decide, by decide⟩

/-- C3 (amended): the table-row strategy records as `rent_amount` the largest
parsed value exceeding 100 (smaller amounts are filtered out); the line
fallback strategy records the largest parsed value with no `> 100` filter.
`maxAmount`/`listMax` really select the largest: the selected value is one of
the amounts and bounds them all.  On the example line
`"01-101 MBL2AC60 $50.00 $1,511.00 Occupied"` both strategies record
`rent_amount = 1511.00`, not 50.00. -/
theorem rent_selection_rules :
    (∀ (line : String) (r : Rec), parseTableRow line = some r →
      r.rent_amount = maxAmount ((amountsOf line).filter (fun a => a > 100))) ∧
    (∀ (line : String) (r : Rec), extractFromLine line = some r →
      r.rent_amount = maxAmount (amountsOf line)) ∧
    (∀ (l : List ℚ) (m : ℚ), maxAmount l = some m →
      m ∈ l ∧ ∀ x ∈ l, x ≤ m) ∧
    (∀ (line : String) (x : ℚ),
      x ∈ (amountsOf line).filter (fun a => a > 100) → x > 100) ∧
    (parseTableRow exampleLine).bind (fun r => r.rent_amount) = some 1511 ∧
    (extractFromLine exampleLine).bind (fun r => r.rent_amount) = some 1511 := by
  refine ⟨?_, ?_, ?_, ?_, by decide, by decide⟩
  · intro line r h
    unfold parseTableRow at h
    split at h
    · obtain rfl := Option.some.inj h
      rfl
    · exact absurd h (by simp)
  · intro line r h
    unfold extractFromLine at h
    split at h
    · exact absurd h (by simp)
    · obtain rfl := Option.some.inj h
      rfl
  · intro l m h
    cases l with
    | nil => exact absurd h (by simp [maxAmount])
    | cons a as =>
        obtain rfl : listMax a as = m := Option.some.inj h
        exact listMax_mem_le a as
  · intro line x hx
    have := List.of_mem_filter hx
    exact of_decide_eq_true this

/-- C3 witness: the per-strategy selection rules applied on the example line,
and the max property applied to its amount list. -/
theorem rent_selection_rules_witness :
    (∃ r, parseTableRow exampleLine = some r ∧
      r.rent_amount =
        maxAmount ((amountsOf exampleLine).filter (fun a => a > 100))) ∧
    ((1511 : ℚ) ∈ amountsOf exampleLine ∧
      ∀ x ∈ amountsOf exampleLine, x ≤ 1511) := by
  constructor
  · refine ⟨(parseTableRow exampleLine).get (by decide), ?_, ?_⟩
    · exact (Option.some_get _).symm
    · exact rent_selection_rules.1 exampleLine _ (Option.some_get _).symm
  · exact rent_selection_rules.2.2.1 (amountsOf exampleLine) 1511 (by decide)

/-! ### C8: tenant-name gating -/

theorem tableTenant_eq_some {line t : String} (h : tableTenant line = some t) :
    tableStatus line = "occupied" ∧
      ∀ w ∈ tenantBlacklist, subStr w t = false := by
  unfold tableTenant at h
  cases hm : (tenantSearchL line.data).map List.asString with
  | none =>
      rw [hm] at h
      exact absurd h (by simp)
  | some t0 =>
      rw [hm] at h
      dsimp only at h
      split at h
      · next hc =>
          obtain rfl := Option.some.inj h
          refine ⟨hc.1, ?_⟩
          intro w hw
          rw [Bool.eq_false_iff]
          intro hww
          exact hc.2 (List.any_eq_true.mpr ⟨w, hw, hww⟩)
      · exact absurd h (by simp)

/-- C8 counterexample: on the line `"vacant home cleaning"` the line fallback
strategy records `tenant_name = "vacant home cleaning"` even though the line's
occupancy signal resolves to `vacant`, not `occupied` — the fallback applies
neither the occupancy gate nor the blacklist. -/
theorem fallback_tenant_unconditional_cex :
    (extractFromLine "vacant home cleaning").bind (fun r => r.tenant_name) =
      some "vacant home cleaning" ∧
    (extractFromLine "vacant home cleaning").bind (fun r => r.status) =
      some "vacant" ∧
    (some "vacant" : Option String) ≠ some "occupied" := by
  refine ⟨by decide, by decide, by decide⟩

/-- C8 (amended): under the table-row strategy a tenant name is included only
when the row's occupancy signal is `occupied` and the (stripped) match
contains none of the blacklist words
`Unit, Rent, Total, Notice, Occupied, Vacant, Status`; the line fallback
strategy instead stores the first proper-case match unconditionally, with no
occupancy or blacklist gate. -/
theorem tenant_gating_rules :
    (∀ (line : String) (r : Rec) (t : String), parseTableRow line = some r →
      r.tenant_name = some t →
      r.status = some "occupied" ∧ ∀ w ∈ tenantBlacklist, subStr w t = false) ∧
    (∀ (line : String) (r : Rec), parseTableRow line = some r →
      r.tenant_name = tableTenant line) ∧
    (∀ (line : String) (r : Rec), extractFromLine line = some r →
      r.tenant_name = (tenantSearchL line.data).map List.asString) := by
  refine ⟨?_, ?_, ?_⟩
  · intro line r t h ht
    unfold parseTableRow at h
    split at h
    · obtain rfl := Option.some.inj h
      obtain ⟨hs, hb⟩ := tableTenant_eq_some ht
      exact ⟨by rw [show (tableRowRec line).status = some (tableStatus line)
        from rfl, hs], hb⟩
    · exact absurd h (by simp)
  · intro line r h
    unfold parseTableRow at h
    split at h
    · obtain rfl := Option.some.inj h
      rfl
    · exact absurd h (by simp)
  · intro line r h
    unfold extractFromLine at h
    split at h
    · exact absurd h (by simp)
    · obtain rfl := Option.some.inj h
      rfl

/-- C8 witness: the table-row gate applied on the example line, whose record
carries tenant name `"MBL"` on a row whose status resolves to occupied. -/
theorem tenant_gating_rules_witness :
    parseTableRow exampleLine = some (tableRowRec exampleLine) ∧
    (tableRowRec exampleLine).tenant_name = some "MBL" ∧
    ((tableRowRec exampleLine).status = some "occupied" ∧
      ∀ w ∈ tenantBlacklist, subStr w "MBL" = false) :=
  ⟨by decide, by decide,
    tenant_gating_rules.1 exampleLine (tableRowRec exampleLine) "MBL"
      (by decide) (by decide)⟩

/-! ### C2: the pipeline never returns whitespace-only text -/

/-- C2: `process_document` never returns whitespace-only text: every
successful result has non-whitespace text; when the document is classified
not machine-readable and the OCR backend is unavailable it raises
`OcrUnavailable`; and when the selected path (direct extraction with its
fallback, or OCR) yields only-whitespace text it raises `NoTextExtracted`. -/
theorem processDocument_no_whitespace :
    (∀ (doc : Doc) (t : String) (rs : List Rec),
      processDocument doc = .ok (t, rs) → (pyStrip t).isEmpty = false) ∧
    (∀ doc : Doc, doc.pathExists = true → isMachineReadable doc = false →
      doc.ocrAvailable = false →
      processDocument doc = .error .ocrUnavailable) ∧
    (∀ doc : Doc, doc.pathExists = true → isMachineReadable doc = true →
      (pyStrip doc.plumberText).isEmpty = true →
      (pyStrip (extractTextPymupdf doc)).isEmpty = true →
      processDocument doc = .error .noTextExtracted) ∧
    (∀ doc : Doc, doc.pathExists = true → isMachineReadable doc = false →
      doc.ocrAvailable = true →
      (pyStrip (extractTextFromPdfOcr doc)).isEmpty = true →
      processDocument doc = .error .noTextExtracted) := by
  refine ⟨?_, ?_, ?_, ?_⟩
  · intro doc t rs h
    unfold processDocument at h
    split at h
    · exact absurd h (by simp)
    · dsimp only at h
      split at h
      · exact absurd h (by simp)
      · split at h
        · exact absurd h (by simp)
        · rename_i x heq hcond
          have hx : x = t := congrArg Prod.fst (Except.ok.inj h)
          rw [← hx]
          exact Bool.eq_false_iff.mpr hcond
  · intro doc hp hr ho
    simp [processDocument, hp, hr, ho]
  · intro doc hp hr h1 h2
    simp [processDocument, hp, hr, h1, h2]
  · intro doc hp hr ho h1
    simp [processDocument, hp, hr, ho, h1]

/-- A machine-readable document whose pdfplumber text contains no digits. -/
def okDoc : Doc :=
  { pathExists := true, openOk := true,
    pages := ["This page has a sufficiently long text layer"],
    plumberText := "no digits here at all",
    ocrAvailable := false, ocrPageTexts := [] }

/-- A zero-page document with no OCR backend installed. -/
def zeroPageDocNoOcr : Doc :=
  { pathExists := true, openOk := true, pages := [], plumberText := "",
    ocrAvailable := false, ocrPageTexts := [] }

/-- C2 witness: a successful run returns non-whitespace text, and a
not-machine-readable document without an OCR backend raises
`OcrUnavailable`. -/
theorem processDocument_no_whitespace_witness :
    (processDocument okDoc = .ok ("no digits here at all", []) ∧
      (pyStrip "no digits here at all").isEmpty = false) ∧
    (zeroPageDocNoOcr.pathExists = true ∧
      isMachineReadable zeroPageDocNoOcr = false ∧
      zeroPageDocNoOcr.ocrAvailable = false ∧
      processDocument zeroPageDocNoOcr = .error .ocrUnavailable) :=
  ⟨⟨by rfl,
    processDocument_no_whitespace.1 okDoc "no digits here at all" [] (by rfl)⟩,
   ⟨rfl, by decide, rfl,
    processDocument_no_whitespace.2.1 zeroPageDocNoOcr rfl (by decide) rfl⟩⟩

/-! ### C1: zero-page documents -/

/-- A zero-page document with an OCR backend present. -/
def zeroPageDoc : Doc :=
  { pathExists := true, openOk := true, pages := [], plumberText := "",
    ocrAvailable := true, ocrPageTexts := [] }

/-- C1 counterexample: on a zero-page document (OCR backend present) the
classifier returns false as claimed, but `process_document` raises the
no-text-extracted condition (`ValueError`), not `InvalidDocument`: the
pipeline entry point contains no `InvalidDocument` raise at all. -/
theorem zero_page_not_invalidDocument_cex :
    isMachineReadable zeroPageDoc = false ∧
    processDocument zeroPageDoc = .error .noTextExtracted ∧
    PipelineError.noTextExtracted ≠ PipelineError.invalidDocument := by
  refine ⟨by decide, by rfl, by decide⟩

/-- C1 (amended): for every zero-page document (rasterization yields one image
per page, hence no image) the readability classifier returns false, and
`process_document` — which raises no `InvalidDocument` condition — fails with
`OcrBackendUnavailable` when the OCR engine is absent and with
`NoTextExtracted` otherwise (OCR of zero pages yields empty text). -/
theorem zero_page_behaviour (doc : Doc) (hp : doc.pages = [])
    (hlen : doc.ocrPageTexts.length = doc.pages.length) :
    isMachineReadable doc = false ∧
    (doc.pathExists = true →
      processDocument doc =
        .error (if doc.ocrAvailable then PipelineError.noTextExtracted
                else PipelineError.ocrUnavailable)) := by
  have hocr : doc.ocrPageTexts = [] := by
    rw [hp] at hlen
    exact List.eq_nil_of_length_eq_zero hlen
  have hread : isMachineReadable doc = false := by
    unfold isMachineReadable
    by_cases ho : doc.openOk = true
    · simp [ho, hp]
    · simp [ho]
  refine ⟨hread, ?_⟩
  intro hpath
  by_cases ha : doc.ocrAvailable = true
  · simp [processDocument, hpath, hread, ha, extractTextFromPdfOcr, hocr,
      pyStrip, stripChars]
    rfl
  · simp [processDocument, hpath, hread, ha]

/-- C1 witness: the amended behaviour applied to a concrete zero-page
document without an OCR backend, yielding `OcrBackendUnavailable`. -/
theorem zero_page_behaviour_witness :
    zeroPageDocNoOcr.pages = [] ∧
    zeroPageDocNoOcr.ocrPageTexts.length = zeroPageDocNoOcr.pages.length ∧
    (isMachineReadable zeroPageDocNoOcr = false ∧
      (zeroPageDocNoOcr.pathExists = true →
        processDocument zeroPageDocNoOcr =
          .error (if zeroPageDocNoOcr.ocrAvailable then
                    PipelineError.noTextExtracted
                  else PipelineError.ocrUnavailable))) :=
  ⟨rfl, rfl, zero_page_behaviour zeroPageDocNoOcr rfl rfl⟩

end RentRoll
